import Mathlib

set_option maxRecDepth 8000

/-!
Shallow embedding of `generate_graph/graph_util.py` (class `VerilogGraph`):
a typed netlist graph with four block kinds (Cfg LUT blocks, Ari arithmetic
cells, tri-state buffers, AND/OR gates) plus primary IOs, a demand-driven
recursive evaluator, and a TMR (triple-modular-redundancy) rewrite.

Modelling conventions:
* Python net values `1 | 0 | 'Z'` (ints or chars are unified by `str()` at
  every read site) are the ternary type `V`; the Python `None` marker for an
  unset value is `Option.none`, so stored values are `Option V`.
* The heterogeneous dict node records, discriminated in the source by list
  lengths (`len(node) == 2` for prime-ios and gates, `len(node[1])` in
  `{1,2,3}` for tribuf/cfg/ari), become a sum type `Node`; every dispatch in
  the source is on exactly these shapes, so the tag match is faithful.
* The Python dict `dGrph` is an insertion-ordered association list with
  unique keys; `d[k] = v` on an existing key replaces in place, `del`
  removes, iteration respects insertion order.
* Python exceptions that the source can actually raise on the modelled
  paths (IndexError / TypeError / RecursionError) are explicit error
  outcomes; diagnostics that the source merely prints before returning are
  plain no-op returns.
* The unbounded interpreter recursion of `__processBlcks` is modelled with
  explicit fuel: fuel exhaustion is the Python `RecursionError`.
-/

namespace VerilogGraphModel

/-- Ternary net value: `1`, `0` or `'Z'` of the source. -/
inductive V : Type
  | zero
  | one
  | highZ
deriving DecidableEq, Repr

/-- `__boolToChar`: `True ↦ '1'`, `False ↦ '0'`. -/
def V.ofBool (b : Bool) : V := if b then .one else .zero

/-- `__charToBool`: `'1' ↦ True`, `'0' ↦ False` (callers exclude `'Z'`). -/
def V.toBool : V → Bool
  | .one => true
  | _ => false

/-- Direction of a primary io: `'i'` or `'o'`. -/
inductive IoT : Type
  | i
  | o
deriving DecidableEq, Repr

/-- Gate type marker: `'A'` (and gate) or `'O'` (or gate). -/
inductive GType : Type
  | A
  | O
deriving DecidableEq, Repr

/-- One node record of `dGrph`.  Fields keep the order of the source lists:
* `primeIo io_type value` is `[io_type, 1|0|None]`;
* `cfg inputs opName opVal config` is `[(ips), [op, val], cfg_string]`
  with `config` the already reversed bit string;
* `ari inputs (Y) (S) (FCO) config` is
  `[(ips), [[Y, val], [S, val], [FCO, val]], cfg_string]`;
* `tri input ctrl opName opVal` is `[(input, ctrl), [ctrl], [op, val]]`;
* `gate gtype inputs opName opVal` is `[(ips), [gtype, op, val]]`. -/
inductive Node : Type
  | primeIo (ioType : IoT) (val : Option V)
  | cfg (ins : List String) (opName : String) (opVal : Option V) (config : List Bool)
  | ari (ins : List String) (outY outS outF : String × Option V) (config : List Bool)
  | tri (dataIn ctrlIn : String) (opName : String) (opVal : Option V)
  | gate (gt : GType) (ins : List String) (opName : String) (opVal : Option V)
deriving DecidableEq, Repr

/-- The ordered input tuple `node[0]` of a block (a prime io has none;
the source never evaluates a prime io as a block). -/
def Node.inputs : Node → List String
  | .primeIo _ _ => []
  | .cfg ins _ _ _ => ins
  | .ari ins _ _ _ _ => ins
  | .tri d c _ _ => [d, c]
  | .gate _ ins _ _ => ins

/-- Value-slot writers (in-place `[...] = v` mutations; they never change a
node's kind, nets or config). -/
def Node.withPrimeVal (v : Option V) : Node → Node
  | .primeIo t _ => .primeIo t v
  | n => n

/-- Write the output value slot of a cfg record. -/
def Node.withCfgVal (v : Option V) : Node → Node
  | .cfg i o _ c => .cfg i o v c
  | n => n

/-- Write the three output value slots of an ari record. -/
def Node.withAriVals (vy vs vf : Option V) : Node → Node
  | .ari i y s f c => .ari i (y.1, vy) (s.1, vs) (f.1, vf) c
  | n => n

/-- Write the output value slot of a tribuf record. -/
def Node.withTriVal (v : Option V) : Node → Node
  | .tri d c o _ => .tri d c o v
  | n => n

/-- Write the output value slot of a gate record. -/
def Node.withGateVal (v : Option V) : Node → Node
  | .gate t i o _ => .gate t i o v
  | n => n

/-- The node store: insertion-ordered, unique keys (a Python dict). -/
abbrev Store := List (String × Node)

namespace Store

/-- Dict lookup (first binding of the key). -/
def find? (s : Store) (k : String) : Option Node :=
  match s with
  | [] => none
  | p :: t => if p.1 = k then some p.2 else find? t k

/-- `d[k] = v`: replace in place if the key exists, else append. -/
def insert (s : Store) (k : String) (n : Node) : Store :=
  match s with
  | [] => [(k, n)]
  | p :: t => if p.1 = k then (k, n) :: t else p :: insert t k n

/-- `del d[k]`. -/
def erase (s : Store) (k : String) : Store :=
  match s with
  | [] => []
  | p :: t => if p.1 = k then t else p :: erase t k

/-- In-place mutation of the node stored at `k` (value writes such as
`self.dGrph[id][1][1] = v` never move or retype the entry). -/
def setVal (s : Store) (k : String) (f : Node → Node) : Store :=
  s.map fun p => if p.1 = k then (p.1, f p.2) else p

end Store

/-- The graph object: `dGrph`, `__prime_op` and `__op_fanout`.
(`__prime_ip` is a cache recomputed by `__simSetup` from `dGrph`; during a
`simulate` run primary-input values never change, so the model recomputes it
at each use instead of storing the snapshot.) -/
structure VG : Type where
  dGrph : Store
  prime_op : List String
  op_fanout : List (String × List String)
deriving DecidableEq, Repr

/-- The freshly constructed empty graph. -/
def VG.empty : VG := ⟨[], [], []⟩

/-- `self.dGrph[k] = n`. -/
def VG.ins (g : VG) (k : String) (n : Node) : VG :=
  { g with dGrph := g.dGrph.insert k n }

/-- In-place value mutation of the node stored at `k`. -/
def VG.upd (g : VG) (k : String) (f : Node → Node) : VG :=
  { g with dGrph := g.dGrph.setVal k f }

/-! ### Hex configuration handling (`__convertToBinaryStr`) -/

/-- One hex digit to its four bits, MSB first (`bin(int(c,16))` left-padded
to width 4). -/
def toBits4 (d : Fin 16) : List Bool :=
  [decide (d.val / 8 % 2 = 1), decide (d.val / 4 % 2 = 1),
   decide (d.val / 2 % 2 = 1), decide (d.val % 2 = 1)]

/-- `__convertToBinaryStr`: hex string of length `n` to bit string of
length `4 n`, MSB first. -/
def convertToBinaryStr (hex : List (Fin 16)) : List Bool :=
  (hex.map toBits4).flatten

/-- Integer value of a hex string (the user's configuration value). -/
def hexToNat (hex : List (Fin 16)) : Nat :=
  hex.foldl (fun a d => 16 * a + d.val) 0

/-- Integer value of a bit string, MSB first. -/
def bitsToNat (bs : List Bool) : Nat :=
  bs.foldl (fun a b => 2 * a + cond b 1 0) 0

/-- `int(ip_str, 2)` on a string of `'0'`/`'1'` input values (callers have
already excluded `'Z'`). -/
def ipIndex (ips : List V) : Nat :=
  ips.foldl (fun a v => 2 * a + (if v = V.one then 1 else 0)) 0

/-! ### Builder API -/

/-- `addPrimeIo(io_id, io_type)`.  (The `io_type not in ['i','o']` rejection
is subsumed by the type `IoT`.)  `VCC`/`GND` are pinned at creation. -/
def addPrimeIo (g : VG) (io_id : String) (io_type : IoT) : VG :=
  if (g.dGrph.find? io_id).isSome then g    -- io_id already exists: no node added
  else
    let v : Option V :=
      if io_id = "VCC" then some .one
      else if io_id = "GND" then some .zero
      else none
    let g := { g with dGrph := g.dGrph.insert io_id (.primeIo io_type v) }
    if io_type = .o then { g with prime_op := g.prime_op ++ [io_id] } else g

/-- Register fan-out sinks for a driving output (`__op_fanout`). -/
def registerFanout (g : VG) (op0 : String) (sinks : List String) : VG :=
  if (g.op_fanout.lookup op0).isSome then g   -- duplicate driving output
  else { g with op_fanout := g.op_fanout ++ [(op0, sinks)] }

/-- `addCfgBlck(cfg_id, inputs, output, config)`.  Faithful points:
* the `len(inputs) == 1 and len(config) == 1` early path performs NO
  duplicate-id check, so an existing node under `cfg_id` is overwritten;
* for `len(inputs) < 2` the Python comparison `len(config) !=
  2**(len(inputs)-2)` is against a fractional power and always holds, which
  the disjunct `inputs.length < 2` reproduces;
* the config bit string is stored reversed. -/
def addCfgBlck (g : VG) (cfg_id : String) (inputs : List String)
    (output : List String) (config : List (Fin 16)) : VG :=
  match output with
  | [] => g   -- the source would raise IndexError on output[0]; never reached here
  | op0 :: fanouts =>
    let nd := Node.cfg inputs op0 none ((convertToBinaryStr config).reverse)
    if inputs.length = 1 ∧ config.length = 1 then
      let g := { g with dGrph := g.dGrph.insert cfg_id nd }
      if fanouts ≠ [] then registerFanout g op0 fanouts else g
    else if (inputs.length ≤ 2 ∧ config.length ≠ 1) ∨ inputs.length < 2 ∨
        config.length ≠ 2 ^ (inputs.length - 2) then g
    else if (g.dGrph.find? cfg_id).isSome then g
    else
      let g := { g with dGrph := g.dGrph.insert cfg_id nd }
      if fanouts ≠ [] then registerFanout g op0 fanouts else g

/-- `addAriBlck(ari_id, inputs, outputs, config)`. -/
def addAriBlck (g : VG) (ari_id : String) (inputs outputs : List String)
    (config : List (Fin 16)) : VG :=
  if inputs.length ≠ 5 then g
  else if outputs.length ≠ 3 then g
  else if config.length ≠ 5 then g
  else if (g.dGrph.find? ari_id).isSome then g
  else
    match outputs with
    | [o1, o2, o3] =>
      let nd := Node.ari inputs (o1, none) (o2, none) (o3, none)
        ((convertToBinaryStr config).reverse)
      { g with dGrph := g.dGrph.insert ari_id nd }
    | _ => g   -- impossible: outputs.length = 3

/-- `addTribuf(tribuf_id, ip, ctrl, op)`. -/
def addTribuf (g : VG) (tribuf_id ip ctrl op : String) : VG :=
  if (g.dGrph.find? tribuf_id).isSome then g
  else { g with dGrph := g.dGrph.insert tribuf_id (.tri ip ctrl op none) }

/-- `__addGate(gate_id, gate_type, inputs, output)` (gate_type validity is
subsumed by `GType`). -/
def addGate (g : VG) (gate_id : String) (gt : GType) (inputs : List String)
    (output : String) : VG :=
  if (g.dGrph.find? gate_id).isSome then g
  else if inputs.length < 2 then g
  else { g with dGrph := g.dGrph.insert gate_id (.gate gt inputs output none) }

/-! ### TMR transform (`triplicateBlck`) -/

/-- Outcome channel of `triplicateBlck`: `ok` (rewrite done), `missing`
(printed diagnostic, no-op), `pyExn` (an uncaught Python exception:
TypeError on `len` of a prime-io value, IndexError on `node[2]` of a gate
record — a gate's `len(node[1]) == 3` sends it down the ari branch — or
IndexError on `config[0]` of an empty config). -/
inductive TOut : Type
  | ok
  | missing
  | pyExn
deriving DecidableEq, Repr

/-- `triplicateBlck(blck_id)`: replace a cfg/ari/tribuf block by three
replicas plus 2-of-3 voters made of gates.  Faithful points:
* the replica output nets of a CFG block are named from
  `self.dGrph[blck_id][2][0]`, the FIRST CHARACTER OF THE (reversed) CONFIG
  STRING, not from the output net;
* the voter or-gate of a TRIBUF block drives `self.dGrph[blck_id][1][0]`,
  which for a tribuf record is its CTRL NET, not its output net;
* gate/prime-io arguments raise (see `TOut.pyExn`). -/
def triplicateBlck (g : VG) (blck_id : String) : VG × TOut :=
  match g.dGrph.find? blck_id with
  | none => (g, .missing)
  | some (.primeIo _ _) => (g, .pyExn)
  | some (.gate _ _ _ _) => (g, .pyExn)
  | some (.ari ins (yN, _) (sN, _) (fN, _) config) =>
    let id0 := blck_id ++ "_tripd780"
    let id1 := blck_id ++ "_tripd781"
    let id2 := blck_id ++ "_tripd782"
    let y0 := yN ++ "_trip7280"; let y1 := yN ++ "_trip7281"; let y2 := yN ++ "_trip7282"
    let s0 := sN ++ "_trip7280"; let s1 := sN ++ "_trip7281"; let s2 := sN ++ "_trip7282"
    let f0 := fN ++ "_trip7280"; let f1 := fN ++ "_trip7281"; let f2 := fN ++ "_trip7282"
    let g := g.ins id0 (.ari ins (y0, none) (s0, none) (f0, none) config)
    let g := g.ins id1 (.ari ins (y1, none) (s1, none) (f1, none) config)
    let g := g.ins id2 (.ari ins (y2, none) (s2, none) (f2, none) config)
    let g := addGate g (id0 ++ "_and0") .A [y0, y1] (id0 ++ "_and0_o")
    let g := addGate g (id1 ++ "_and0") .A [y0, y2] (id1 ++ "_and0_o")
    let g := addGate g (id2 ++ "_and0") .A [y1, y2] (id2 ++ "_and0_o")
    let g := addGate g (id0 ++ "_or0") .O
      [id0 ++ "_and0_o", id1 ++ "_and0_o", id2 ++ "_and0_o"] yN
    let g := addGate g (id0 ++ "_and1") .A [s0, s1] (id0 ++ "_and1_o")
    let g := addGate g (id1 ++ "_and1") .A [s0, s2] (id1 ++ "_and1_o")
    let g := addGate g (id2 ++ "_and1") .A [s1, s2] (id2 ++ "_and1_o")
    let g := addGate g (id0 ++ "_or1") .O
      [id0 ++ "_and1_o", id1 ++ "_and1_o", id2 ++ "_and1_o"] sN
    let g := addGate g (id0 ++ "_and2") .A [f0, f1] (id0 ++ "_and2_o")
    let g := addGate g (id1 ++ "_and2") .A [f0, f2] (id1 ++ "_and2_o")
    let g := addGate g (id2 ++ "_and2") .A [f1, f2] (id2 ++ "_and2_o")
    let g := addGate g (id0 ++ "_or2") .O
      [id0 ++ "_and2_o", id1 ++ "_and2_o", id2 ++ "_and2_o"] fN
    ({ g with dGrph := g.dGrph.erase blck_id }, .ok)
  | some (.cfg ins opName _ config) =>
    match config with
    | [] => (g, .pyExn)   -- config[0] on an empty string
    | c0 :: _ =>
      let base := if c0 then "1" else "0"
      let id0 := blck_id ++ "_tripd780"
      let id1 := blck_id ++ "_tripd781"
      let id2 := blck_id ++ "_tripd782"
      let o0 := base ++ "_trip7280"
      let o1 := base ++ "_trip7281"
      let o2 := base ++ "_trip7282"
      let g := g.ins id0 (.cfg ins o0 none config)
      let g := g.ins id1 (.cfg ins o1 none config)
      let g := g.ins id2 (.cfg ins o2 none config)
      let g := addGate g (id0 ++ "_and0") .A [o0, o1] (id0 ++ "_and0_o")
      let g := addGate g (id1 ++ "_and0") .A [o0, o2] (id1 ++ "_and0_o")
      let g := addGate g (id2 ++ "_and0") .A [o1, o2] (id2 ++ "_and0_o")
      let g := addGate g (id0 ++ "_or0") .O
        [id0 ++ "_and0_o", id1 ++ "_and0_o", id2 ++ "_and0_o"] opName
      ({ g with dGrph := g.dGrph.erase blck_id }, .ok)
  | some (.tri dIn cIn opName _) =>
    let id0 := blck_id ++ "_tripd780"
    let id1 := blck_id ++ "_tripd781"
    let id2 := blck_id ++ "_tripd782"
    let o0 := opName ++ "_trip7280"
    let o1 := opName ++ "_trip7281"
    let o2 := opName ++ "_trip7282"
    let g := g.ins id0 (.tri dIn cIn o0 none)
    let g := g.ins id1 (.tri dIn cIn o1 none)
    let g := g.ins id2 (.tri dIn cIn o2 none)
    let g := addGate g (id0 ++ "_and0") .A [o0, o1] (id0 ++ "_and0_o")
    let g := addGate g (id1 ++ "_and0") .A [o0, o2] (id1 ++ "_and0_o")
    let g := addGate g (id2 ++ "_and0") .A [o1, o2] (id2 ++ "_and0_o")
    -- `self.dGrph[blck_id][1][0]` of a tribuf record is the ctrl net
    let g := addGate g (id0 ++ "_or0") .O
      [id0 ++ "_and0_o", id1 ++ "_and0_o", id2 ++ "_and0_o"] cIn
    ({ g with dGrph := g.dGrph.erase blck_id }, .ok)

/-! ### Input mutation (`setIpValue`) -/

/-- `setIpValue(ip_id, value)`: only a node whose `node[0]` equals `'i'`
(hence only a prime io declared as input — for any block record `node[0]`
is the input tuple) is written; `value >= 1` normalizes to `1`, else `0`.
There is NO special case protecting `VCC`/`GND`. -/
def setIpValue (g : VG) (ip_id : String) (value : Nat) : VG :=
  match g.dGrph.find? ip_id with
  | none => g    -- does not exist in graph: value not set
  | some (.primeIo .i _) =>
    let v : V := if 1 ≤ value then .one else .zero
    g.upd ip_id (Node.withPrimeVal (some v))
  | some _ => g   -- cannot set value of any other node

/-! ### Listings used by the evaluator -/

/-- Identifiers of prime ios declared as inputs (`listPrimeIos` filtered on
`io_type == 'i'`). -/
def primeInputIds (g : VG) : List String :=
  g.dGrph.filterMap fun p =>
    match p.2 with
    | .primeIo .i _ => some p.1
    | _ => none

/-- One row of the evaluator's io table: net name, source (`none` for a
primary input, `'$'` in the source; `some blck` for the block of origin)
and current value. -/
structure IoEntry : Type where
  net : String
  src : Option String
  val : Option V
deriving DecidableEq, Repr

/-- Rows for primary inputs (`__prime_ip`: `listPrimeIos(True)` filtered on
`'i'`).  During a `simulate` run primary-input values do not change, so
recomputing here is the same as the source's `__simSetup` snapshot. -/
def primeIpEntries (g : VG) : List IoEntry :=
  g.dGrph.filterMap fun p =>
    match p.2 with
    | .primeIo .i v => some ⟨p.1, none, v⟩
    | _ => none

/-- `listIntermediateOps(True)`: every block output (cfg, then ari, then
tribuf, then gate, store order inside each kind) whose net is not a primary
input, with the block of origin and the current value. -/
def interOps (g : VG) : List IoEntry :=
  let pis := primeInputIds g
  (g.dGrph.filterMap fun p =>
    match p.2 with
    | .cfg _ op v _ => if op ∈ pis then none else some (⟨op, some p.1, v⟩ : IoEntry)
    | _ => none) ++
  ((g.dGrph.map fun p =>
    match p.2 with
    | .ari _ y s f _ =>
      ([y, s, f].filter fun o => o.1 ∉ pis).map
        fun o => (⟨o.1, some p.1, o.2⟩ : IoEntry)
    | _ => []).flatten) ++
  (g.dGrph.filterMap fun p =>
    match p.2 with
    | .tri _ _ op v => if op ∈ pis then none else some (⟨op, some p.1, v⟩ : IoEntry)
    | _ => none) ++
  (g.dGrph.filterMap fun p =>
    match p.2 with
    | .gate _ _ op v => if op ∈ pis then none else some (⟨op, some p.1, v⟩ : IoEntry)
    | _ => none)

/-! ### Per-kind block processing -/

/-- `if <net> in self.__prime_op: self.dGrph[<net>][1] = v` (names in
`__prime_op` always denote prime-io records in graphs built by the API). -/
def propagatePrime (g : VG) (net : String) (v : Option V) : VG :=
  if net ∈ g.prime_op then g.upd net (Node.withPrimeVal v) else g

/-- Fan-out broadcast after a cfg write: each sink that passes the
`in self.__prime_op` sanity check receives the value. -/
def propagateFanout (g : VG) (net : String) (v : Option V) : VG :=
  match g.op_fanout.lookup net with
  | none => g
  | some sinks =>
    sinks.foldl
      (fun g s =>
        if s ∈ g.prime_op then g.upd s (Node.withPrimeVal v)
        else g)   -- sanity check failed (printed only)
      g

/-- The write-back tail of `__processCfgBlck`: store the value, update a
primary output of the same name, broadcast to fan-out sinks. -/
def writeCfgOut (g : VG) (blck_id opName : String) (v : V) : VG :=
  let g := g.upd blck_id (Node.withCfgVal (some v))
  let g := propagatePrime g opName (some v)
  propagateFanout g opName (some v)

/-- `__processCfgBlck(blck_id, ip_str)`.  For a single input the source
computes `int(ip_str, 2)`, i.e. the RAW INPUT BIT, ignoring the config; an
out-of-range LUT index (impossible for builder-created blocks) or an empty
input string is a Python error. -/
def processCfgBlck (g : VG) (blck_id : String) (ips : List V) : Except Unit VG :=
  match g.dGrph.find? blck_id with
  | some (.cfg _ opName _ config) =>
    let val? : Except Unit V :=
      if V.highZ ∈ ips then .ok .highZ
      else
        match ips with
        | [v] => .ok v            -- int(ip_str, 2) of one bit: the bit itself
        | [] => .error ()         -- int('', 2): ValueError (unreachable)
        | _ =>
          match config[ipIndex ips]? with
          | some b => .ok (V.ofBool b)
          | none => .error ()     -- IndexError (unreachable for built blocks)
    match val? with
    | .error e => .error e
    | .ok v => .ok (writeCfgOut g blck_id opName v)
  | _ => .ok g   -- only dispatched to cfg records

/-- The write-back tail of `__processAriBlck`: store the three values, then
update same-named primary outputs. -/
def writeAriOuts (g : VG) (blck_id yN sN fN : String) (vy vs vf : V) : VG :=
  let g := g.upd blck_id
    (Node.withAriVals (some vy) (some vs) (some vf))
  let g := propagatePrime g yN (some vy)
  let g := propagatePrime g sN (some vs)
  propagatePrime g fN (some vf)

/-- `__processAriBlck(blck_id, ip_str)`.  On Python bools (ints `0`/`1`)
the bitwise `~x & y` equals `(not x) and y` and `|`/`&`/`^` are the boolean
connectives, which is how the formulas are rendered here. -/
def processAriBlck (g : VG) (blck_id : String) (ips : List V) : Except Unit VG :=
  match g.dGrph.find? blck_id with
  | some (.ari _ (yN, _) (sN, _) (fN, _) config) =>
    if V.highZ ∈ ips then
      .ok (writeAriOuts g blck_id yN sN fN .highZ .highZ .highZ)
    else
      match ips with
      | [a, b, c, d, fci] =>
        match config[16]?, config[17]?, config[18]?, config[19]?,
            config[ipIndex [.zero, b, c, d]]?,
            config[ipIndex [.one, b, c, d]]?,
            config[ipIndex [a, b, c, d]]? with
        | some i16, some i17, some i18, some i19, some bF0, some bF1, some bY =>
          let FCI := fci.toBool
          let P := i19 || (!i19 && i18)
          let G := (bF0 && i16 && i17) || (i17 && !i16) || (bF1 && i16 && i17)
          let Y := bY
          let S := xor Y FCI
          let FCO := (!P && G) || (P && FCI)
          .ok (writeAriOuts g blck_id yN sN fN (V.ofBool Y) (V.ofBool S) (V.ofBool FCO))
        | _, _, _, _, _, _, _ => .error ()   -- IndexError on a short config
      | _ => .error ()   -- ip_str[4]: IndexError (unreachable: arity is 5)
  | _ => .ok g

/-- `__processTribuf(blck_id, ip_str)`: output is the data input when the
ctrl input reads `'1'`, else `'Z'` (also when ctrl is `'Z'`; a `'Z'` data
input passes through when ctrl is `'1'`). -/
def writeTriOut (g : VG) (blck_id opName : String) (v : V) : VG :=
  let g := g.upd blck_id (Node.withTriVal (some v))
  propagatePrime g opName (some v)

def processTribuf (g : VG) (blck_id : String) (ips : List V) : Except Unit VG :=
  match g.dGrph.find? blck_id with
  | some (.tri _ _ opName _) =>
    match ips with
    | dIn :: ctrl :: _ =>
      .ok (writeTriOut g blck_id opName (if ctrl = V.one then dIn else .highZ))
    | _ => .error ()   -- ip_str[1]: IndexError (unreachable: arity is 2)
  | _ => .ok g

def writeGateOut (g : VG) (blck_id opName : String) (v : V) : VG :=
  let g := g.upd blck_id (Node.withGateVal (some v))
  propagatePrime g opName (some v)

/-- `__processGates(blck_id, ip_str)`. -/
def processGates (g : VG) (blck_id : String) (ips : List V) : Except Unit VG :=
  match g.dGrph.find? blck_id with
  | some (.gate gt _ opName _) =>
    let v : V :=
      if V.highZ ∈ ips then .highZ
      else
        match gt with
        | .A => V.ofBool (ips.foldl (fun acc x => acc && x.toBool) true)
        | .O => V.ofBool (ips.foldl (fun acc x => acc || x.toBool) false)
    .ok (writeGateOut g blck_id opName v)
  | _ => .ok g

/-! ### The recursive evaluator (`__processBlcks`) -/

/-- Result of a `__processBlcks` call: `ret b` is a Python `return b`
(`ret false` also stands for the bare `return` on a missing id, which the
callers treat as falsy), `exn` is an escaping Python exception —
RecursionError when the fuel (the interpreter stack) is exhausted, or an
error from a per-kind processor. -/
inductive PRes : Type
  | ret (b : Bool)
  | exn
deriving DecidableEq, Repr

/-- Outcome of the input-resolution loop of `__processBlcks`: the resolved
value string, an abort (`abort_processing`), or an escaping exception. -/
inductive RRes : Type
  | vals (l : List V)
  | abort
  | exn
deriving DecidableEq, Repr

/-- Reading a just-processed origin block's output for input net `ip`
(the `if(self.__processBlcks(...))` success branch).  A still-unset value
would contribute the 4-character `str(None)` in the source; it contributes
nothing here, and either way the later length sanity check fails.  Origins
come from `interOps`, so the prime-io arm is unreachable. -/
def readOrigin (g : VG) (origin ip : String) : List V :=
  match g.dGrph.find? origin with
  | some (.gate _ _ _ v) => v.toList
  | some (.tri _ _ _ v) => v.toList
  | some (.cfg _ _ v _) => v.toList
  | some (.ari _ y s f _) =>
    (([y, s, f].filter fun o => o.1 = ip).filterMap fun o => o.2)
  | some (.primeIo _ _) => []
  | none => []

/-- The input-resolution loop, parameterized by the recursive processor
`pb` (one nesting level below).  For each input net, the first matching row
of `all_ios` is consulted: a present value is appended; an unset primary
input aborts; an unset block output is produced by recursively processing
its origin and re-reading the store. -/
def resolveInputsF (pb : VG → String → VG × PRes) (g : VG)
    (all_ios : List IoEntry) : List String → VG × RRes
  | [] => (g, .vals [])
  | ip :: rest =>
    match all_ios.find? fun e => e.net = ip with
    | none => (g, .abort)   -- could not find input
    | some e =>
      match e.val with
      | some v =>
        match resolveInputsF pb g all_ios rest with
        | (g2, .vals l) => (g2, .vals (v :: l))
        | other => other
      | none =>
        match e.src with
        | none => (g, .abort)   -- primary input not entered
        | some origin =>
          match pb g origin with
          | (g2, .ret true) =>
            let vs := readOrigin g2 origin ip
            match resolveInputsF pb g2 all_ios rest with
            | (g3, .vals l) => (g3, .vals (vs ++ l))
            | other => other
          | (g2, .ret false) => (g2, .abort)
          | (g2, .exn) => (g2, .exn)

/-- One nesting level of `__processBlcks`, parameterized by the next level
`pb`: build the io table, resolve the inputs, check the length sanity
invariant, then dispatch on the node shape.  (The evaluator is never
invoked on a prime-io id; the source would try to gate-process the io-type
string and fail to resolve its pseudo-input.) -/
def processBlcksF (pb : VG → String → VG × PRes) (g : VG) (blck_id : String) :
    VG × PRes :=
  match g.dGrph.find? blck_id with
  | none => (g, .ret false)   -- does not exist in the graph
  | some nd =>
    let all_ios := primeIpEntries g ++ interOps g
    match resolveInputsF pb g all_ios nd.inputs with
    | (g2, .exn) => (g2, .exn)
    | (g2, .abort) => (g2, .ret false)
    | (g2, .vals ips) =>
      if ips.length ≠ nd.inputs.length then (g2, .ret false)  -- "It's a bug!"
      else
        let dispatch : Except Unit VG :=
          match nd with
          | .gate _ _ _ _ => processGates g2 blck_id ips
          | .ari _ _ _ _ _ => processAriBlck g2 blck_id ips
          | .cfg _ _ _ _ => processCfgBlck g2 blck_id ips
          | .tri _ _ _ _ => processTribuf g2 blck_id ips
          | .primeIo _ _ => .ok g2   -- unreachable (see the doc comment)
        match dispatch with
        | .ok g3 => (g3, .ret true)
        | .error _ => (g2, .exn)

/-- `__processBlcks(blck_id)` with an explicit stack budget; `fuel = 0`
is the RecursionError.  Defined through `Nat.rec` so that it reduces. -/
def processBlcks (fuel : Nat) : VG → String → VG × PRes :=
  Nat.rec (fun g _ => (g, PRes.exn)) (fun _ pb => processBlcksF pb) fuel

theorem processBlcks_zero (g : VG) (id : String) :
    processBlcks 0 g id = (g, .exn) := rfl

theorem processBlcks_succ (fuel : Nat) (g : VG) (id : String) :
    processBlcks (fuel + 1) g id = processBlcksF (processBlcks fuel) g id := rfl

/-! ### `simulate` -/

/-- Reset of the output value slot of a block record (prime ios are handled
separately through `__prime_op`). -/
def Node.clearBlockVal : Node → Node
  | .cfg i o _ c => .cfg i o none c
  | .ari i y s f c => .ari i (y.1, none) (s.1, none) (f.1, none) c
  | .tri d c o _ => .tri d c o none
  | .gate t i o _ => .gate t i o none
  | n => n

/-- `__simSetup`: primary outputs and every block output slot are reset to
`None` (the source does this per kind via the listings; the result is the
same pointwise reset). -/
def simSetup (g : VG) : VG :=
  let g := g.prime_op.foldl (fun g opId => g.upd opId (Node.withPrimeVal none)) g
  { g with dGrph := g.dGrph.map fun p => (p.1, p.2.clearBlockVal) }

/-- Ids of the cfg blocks in store order (`listCfgBlcks`). -/
def cfgIds (g : VG) : List String :=
  g.dGrph.filterMap fun p =>
    match p.2 with
    | .cfg _ _ _ _ => some p.1
    | _ => none

/-- Ids of the ari blocks in store order (`listAriBlcks`). -/
def ariIds (g : VG) : List String :=
  g.dGrph.filterMap fun p =>
    match p.2 with
    | .ari _ _ _ _ _ => some p.1
    | _ => none

/-- Ids of the tribufs in store order (`listTribufs`). -/
def triIds (g : VG) : List String :=
  g.dGrph.filterMap fun p =>
    match p.2 with
    | .tri _ _ _ _ => some p.1
    | _ => none

/-- Ids of the gates in store order (`listGates`). -/
def gateIds (g : VG) : List String :=
  g.dGrph.filterMap fun p =>
    match p.2 with
    | .gate _ _ _ _ => some p.1
    | _ => none

/-- Is the block's (first) output value still `None`?  (The per-pass guard
of `simulate`; each pass only ever asks this of ids of its own kind.) -/
def needsProc (g : VG) (id : String) : Bool :=
  match g.dGrph.find? id with
  | some (.cfg _ _ none _) => true
  | some (.ari _ (_, none) _ _ _) => true
  | some (.tri _ _ _ none) => true
  | some (.gate _ _ _ none) => true
  | _ => false

/-- One `for blck_id in blck_ids` pass of `simulate`.  The boolean is the
no-escaped-exception flag: a `RecursionError` (or other exception) from
`__processBlcks` propagates and stops everything after it; a falsy return
is only a printed error and the loop continues. -/
def runPass (fuel : Nat) : List String → VG → Bool → VG × Bool
  | [], g, ok => (g, ok)
  | id :: rest, g, ok =>
    if ok then
      if needsProc g id then
        match processBlcks fuel g id with
        | (g2, .exn) => (g2, false)
        | (g2, .ret _) => runPass fuel rest g2 true
      else runPass fuel rest g ok
    else (g, false)

/-- The four fixed-order passes of `simulate` (each id list is taken from
the store as the pass is reached, as in the source). -/
def simGo (fuel : Nat) (g : VG) : VG × Bool :=
  let g := simSetup g
  let r1 := runPass fuel (cfgIds g) g true
  let r2 := runPass fuel (ariIds r1.1) r1.1 r1.2
  let r3 := runPass fuel (triIds r2.1) r2.1 r2.2
  runPass fuel (gateIds r3.1) r3.1 r3.2

/-- `simulate(inputs, bit_str)`: both arguments or neither; mismatched
lengths exit before doing anything; otherwise the assignments go through
`setIpValue` and the passes run.  The boolean result is the
no-escaped-exception flag (the source returns nothing). -/
def simulate (fuel : Nat) (g : VG) (args : Option (List String × List Nat)) :
    VG × Bool :=
  match args with
  | none => simGo fuel g
  | some (ins, bits) =>
    if ins.length ≠ bits.length then (g, true)
    else simGo fuel ((ins.zip bits).foldl (fun g p => setIpValue g p.1 p.2) g)

/-! ### Arithmetic facts about the bit-string encoding -/

theorem bitsToNat_go (bs : List Bool) (a : Nat) :
    bs.foldl (fun a b => 2 * a + cond b 1 0) a = a * 2 ^ bs.length + bitsToNat bs := by
  induction bs generalizing a with
  | nil => simp [bitsToNat]
  | cons x t ih =>
    simp only [List.foldl_cons, List.length_cons, bitsToNat] at *
    rw [ih, ih (2 * 0 + cond x 1 0)]
    ring

theorem bitsToNat_cons (x : Bool) (t : List Bool) :
    bitsToNat (x :: t) = cond x 1 0 * 2 ^ t.length + bitsToNat t := by
  have h := bitsToNat_go t (cond x 1 0)
  simp only [bitsToNat, List.foldl_cons]
  simpa using h

theorem bitsToNat_append (xs ys : List Bool) :
    bitsToNat (xs ++ ys) = bitsToNat xs * 2 ^ ys.length + bitsToNat ys := by
  simp only [bitsToNat, List.foldl_append]
  exact bitsToNat_go ys _

theorem bitsToNat_lt (bs : List Bool) : bitsToNat bs < 2 ^ bs.length := by
  induction bs with
  | nil => simp [bitsToNat]
  | cons x t ih =>
    rw [bitsToNat_cons]
    cases x <;> simp only [cond, List.length_cons, pow_succ] <;> omega

theorem convert_cons (d : Fin 16) (t : List (Fin 16)) :
    convertToBinaryStr (d :: t) = toBits4 d ++ convertToBinaryStr t := rfl

theorem convert_length (hex : List (Fin 16)) :
    (convertToBinaryStr hex).length = 4 * hex.length := by
  induction hex with
  | nil => rfl
  | cons d t ih =>
    rw [convert_cons, List.length_append, ih]
    simp [toBits4]
    ring

theorem toBits4_val (d : Fin 16) : bitsToNat (toBits4 d) = d.val := by
  revert d; decide

theorem hexToNat_go (hex : List (Fin 16)) (a : Nat) :
    hex.foldl (fun a d => 16 * a + d.val) a = a * 16 ^ hex.length + hexToNat hex := by
  induction hex generalizing a with
  | nil => simp [hexToNat]
  | cons d t ih =>
    simp only [List.foldl_cons, List.length_cons, hexToNat] at *
    rw [ih, ih (16 * 0 + d.val)]
    ring

theorem hexToNat_cons (d : Fin 16) (t : List (Fin 16)) :
    hexToNat (d :: t) = d.val * 16 ^ t.length + hexToNat t := by
  have h := hexToNat_go t d.val
  simp only [hexToNat, List.foldl_cons]
  simpa using h

theorem bitsToNat_convert (hex : List (Fin 16)) :
    bitsToNat (convertToBinaryStr hex) = hexToNat hex := by
  induction hex with
  | nil => rfl
  | cons d t ih =>
    rw [convert_cons, bitsToNat_append, toBits4_val, ih, convert_length,
      hexToNat_cons, pow_mul]
    norm_num

/-- Indexing the reversed bit string from position 0 is reading the bits of
its value from the least significant side. -/
theorem reverse_getD_testBit (bs : List Bool) (b : Nat) (hb : b < bs.length) :
    bs.reverse.getD b false = (bitsToNat bs).testBit b := by
  induction bs generalizing b with
  | nil => simp at hb
  | cons x t ih =>
    rw [bitsToNat_cons, List.reverse_cons, mul_comm,
      Nat.testBit_mul_pow_two_add _ (bitsToNat_lt t) b]
    rcases lt_or_ge b t.length with h | h
    · rw [if_pos h, ← ih b h, List.getD_append]
      simpa using h
    · have hbe : b = t.length := by simp only [List.length_cons] at hb; omega
      subst hbe
      rw [if_neg (lt_irrefl _), List.getD_append_right, Nat.sub_self]
      · simp only [List.getD]
        cases x <;> simp
      · simp

theorem ipIndex_eq (ips : List V) :
    ipIndex ips = bitsToNat (ips.map fun v => decide (v = V.one)) := by
  unfold ipIndex bitsToNat
  rw [List.foldl_map]
  congr 1
  funext a v
  rw [Bool.cond_decide]

theorem ipIndex_lt (ips : List V) : ipIndex ips < 2 ^ ips.length := by
  rw [ipIndex_eq]
  have h := bitsToNat_lt (ips.map fun v => decide (v = V.one))
  simpa using h

/-- The LUT bit the evaluator fetches: entry `b` of the reversed config is
bit `b`, counted from the LSB, of the user's hex value. -/
theorem convert_reverse_get (hex : List (Fin 16)) (b : Nat)
    (hb : b < 4 * hex.length) :
    ((convertToBinaryStr hex).reverse)[b]? = some ((hexToNat hex).testBit b) := by
  have hlen : b < (convertToBinaryStr hex).length := by rw [convert_length]; exact hb
  have hlen2 : b < (convertToBinaryStr hex).reverse.length := by simpa using hlen
  rw [List.getElem?_eq_getElem hlen2]
  congr 1
  have h := reverse_getD_testBit (convertToBinaryStr hex) b hlen
  rw [bitsToNat_convert] at h
  rw [← h, List.getD_eq_getElem _ _ hlen2]

/-! ### Store lemmas -/

theorem Store.find?_setVal (s : Store) (k j : String) (f : Node → Node) :
    (s.setVal k f).find? j = if j = k then (s.find? j).map f else s.find? j := by
  induction s with
  | nil => simp [Store.setVal, Store.find?]
  | cons p t ih =>
    obtain ⟨pk, pn⟩ := p
    simp only [Store.setVal] at ih
    by_cases h1 : pk = k
    · subst h1
      by_cases h2 : pk = j
      · subst h2
        simp [Store.setVal, Store.find?]
      · have h2a : ¬ j = pk := fun hh => h2 hh.symm
        simp [Store.setVal, Store.find?, h2, h2a, ih]
    · by_cases h2 : pk = j
      · subst h2
        simp [Store.setVal, Store.find?, h1]
      · simp [Store.setVal, Store.find?, h1, h2, ih]

theorem find?_upd (g : VG) (k j : String) (f : Node → Node) :
    (g.upd k f).dGrph.find? j =
      if j = k then (g.dGrph.find? j).map f else g.dGrph.find? j :=
  Store.find?_setVal g.dGrph k j f

theorem find?_propagatePrime_of_fix (g : VG) (net : String) (v : Option V)
    (j : String) (nd : Node) (h : g.dGrph.find? j = some nd)
    (hfx : Node.withPrimeVal v nd = nd) :
    (propagatePrime g net v).dGrph.find? j = some nd := by
  unfold propagatePrime
  split
  · rw [find?_upd]
    split
    · rw [h]; exact congrArg some hfx
    · exact h
  · exact h

theorem find?_foldPrime (sinks : List String) (g : VG) (v : Option V)
    (j : String) (nd : Node) (h : g.dGrph.find? j = some nd)
    (hfx : Node.withPrimeVal v nd = nd) :
    ((sinks.foldl
      (fun g s => if s ∈ g.prime_op then g.upd s (Node.withPrimeVal v) else g)
      g).dGrph.find? j) = some nd := by
  induction sinks generalizing g with
  | nil => exact h
  | cons s t ih =>
    simp only [List.foldl_cons]
    apply ih
    split
    · rw [find?_upd]
      split
      · rw [h]; exact congrArg some hfx
      · exact h
    · exact h

theorem find?_propagateFanout_of_fix (g : VG) (net : String) (v : Option V)
    (j : String) (nd : Node) (h : g.dGrph.find? j = some nd)
    (hfx : Node.withPrimeVal v nd = nd) :
    (propagateFanout g net v).dGrph.find? j = some nd := by
  unfold propagateFanout
  cases g.op_fanout.lookup net with
  | none => exact h
  | some sinks => exact find?_foldPrime sinks g v j nd h hfx

/-- What `writeCfgOut` leaves at the block id. -/
theorem find?_writeCfgOut (g : VG) (blck_id opName : String) (v : V)
    (ins : List String) (op0 : String) (w : Option V) (config : List Bool)
    (h : g.dGrph.find? blck_id = some (.cfg ins op0 w config)) :
    (writeCfgOut g blck_id opName v).dGrph.find? blck_id =
      some (.cfg ins op0 (some v) config) := by
  unfold writeCfgOut
  have h1 : (g.upd blck_id (Node.withCfgVal (some v))).dGrph.find? blck_id =
      some (.cfg ins op0 (some v) config) := by
    rw [find?_upd, if_pos rfl, h]; rfl
  exact find?_propagateFanout_of_fix _ _ _ _ _
    (find?_propagatePrime_of_fix _ _ _ _ _ h1 rfl) rfl

/-- What `writeAriOuts` leaves at the block id. -/
theorem find?_writeAriOuts (g : VG) (blck_id yN sN fN : String) (vy vs vf : V)
    (ins : List String) (y0 s0 f0 : String) (wy ws wf : Option V)
    (config : List Bool)
    (h : g.dGrph.find? blck_id = some (.ari ins (y0, wy) (s0, ws) (f0, wf) config)) :
    (writeAriOuts g blck_id yN sN fN vy vs vf).dGrph.find? blck_id =
      some (.ari ins (y0, some vy) (s0, some vs) (f0, some vf) config) := by
  unfold writeAriOuts
  have h1 : (g.upd blck_id (Node.withAriVals (some vy) (some vs) (some vf))).dGrph.find?
      blck_id = some (.ari ins (y0, some vy) (s0, some vs) (f0, some vf) config) := by
    rw [find?_upd, if_pos rfl, h]; rfl
  exact find?_propagatePrime_of_fix _ _ _ _ _
    (find?_propagatePrime_of_fix _ _ _ _ _
      (find?_propagatePrime_of_fix _ _ _ _ _ h1 rfl) rfl) rfl

/-- What `writeTriOut` leaves at the block id. -/
theorem find?_writeTriOut (g : VG) (blck_id opName : String) (v : V)
    (dN cN o0 : String) (w : Option V)
    (h : g.dGrph.find? blck_id = some (.tri dN cN o0 w)) :
    (writeTriOut g blck_id opName v).dGrph.find? blck_id =
      some (.tri dN cN o0 (some v)) := by
  unfold writeTriOut
  have h1 : (g.upd blck_id (Node.withTriVal (some v))).dGrph.find? blck_id =
      some (.tri dN cN o0 (some v)) := by
    rw [find?_upd, if_pos rfl, h]; rfl
  exact find?_propagatePrime_of_fix _ _ _ _ _ h1 rfl

/-- What `writeGateOut` leaves at the block id. -/
theorem find?_writeGateOut (g : VG) (blck_id opName : String) (v : V)
    (gt : GType) (ins : List String) (o0 : String) (w : Option V)
    (h : g.dGrph.find? blck_id = some (.gate gt ins o0 w)) :
    (writeGateOut g blck_id opName v).dGrph.find? blck_id =
      some (.gate gt ins o0 (some v)) := by
  unfold writeGateOut
  have h1 : (g.upd blck_id (Node.withGateVal (some v))).dGrph.find? blck_id =
      some (.gate gt ins o0 (some v)) := by
    rw [find?_upd, if_pos rfl, h]; rfl
  exact find?_propagatePrime_of_fix _ _ _ _ _ h1 rfl

/-! ### Small value facts -/

theorem ofBool_ne_highZ (b : Bool) : V.ofBool b ≠ V.highZ := by
  cases b <;> simp [V.ofBool]

theorem ofBool_false : V.ofBool false = V.zero := rfl

theorem ofBool_true : V.ofBool true = V.one := rfl

theorem toBool_ofBool (b : Bool) : (V.ofBool b).toBool = b := by
  cases b <;> rfl

theorem ipIndex_ofBool4 (x a b c : Bool) :
    ipIndex [V.ofBool x, V.ofBool a, V.ofBool b, V.ofBool c] =
      8 * x.toNat + 4 * a.toNat + 2 * b.toNat + c.toNat := by
  cases x <;> cases a <;> cases b <;> cases c <;> rfl

theorem getElem?_eq_some_getD (l : List Bool) (i : Nat) (h : i < l.length) :
    l[i]? = some (l.getD i false) := by
  rw [List.getElem?_eq_getElem h, List.getD_eq_getElem _ _ h]

/-! ### C1: Cfg LUT semantics for `n ≥ 2` inputs -/

/-- C1.  For a Cfg block with `n ≥ 2` inputs, all input values in
`{Zero, One}`, and a config of the builder-enforced hex length
(`1` for `n = 2`, `2^(n-2)` for `n ≥ 3`), `__processCfgBlck` writes
`config_rev[b]` — which equals bit `b`, counted from the LSB, of the
user-supplied hex value — to the block's output slot, where
`b = ipIndex ips` is the MSB-first value of the input string. -/
theorem c1_cfg_lut (g : VG) (blck_id : String) (ins : List String)
    (opName : String) (w : Option V) (hex : List (Fin 16)) (ips : List V)
    (hfind : g.dGrph.find? blck_id =
      some (.cfg ins opName w ((convertToBinaryStr hex).reverse)))
    (hn : 2 ≤ ips.length)
    (hz : V.highZ ∉ ips)
    (hlen : hex.length = if ips.length ≤ 2 then 1 else 2 ^ (ips.length - 2)) :
    processCfgBlck g blck_id ips =
      .ok (writeCfgOut g blck_id opName
        (V.ofBool ((hexToNat hex).testBit (ipIndex ips)))) ∧
    (writeCfgOut g blck_id opName
        (V.ofBool ((hexToNat hex).testBit (ipIndex ips)))).dGrph.find? blck_id =
      some (.cfg ins opName
        (some (V.ofBool ((hexToNat hex).testBit (ipIndex ips))))
        ((convertToBinaryStr hex).reverse)) := by
  have hpow : 2 ^ ips.length ≤ 4 * hex.length := by
    rcases le_or_lt ips.length 2 with h2 | h2
    · have : ips.length = 2 := le_antisymm h2 hn
      rw [hlen, if_pos h2, this]
      norm_num
    · rw [hlen, if_neg (not_le_of_lt h2)]
      have : ips.length = 2 + (ips.length - 2) := by omega
      rw [this, pow_add]
      norm_num
  have hb : ipIndex ips < 4 * hex.length :=
    lt_of_lt_of_le (ipIndex_lt ips) hpow
  have hget := convert_reverse_get hex (ipIndex ips) hb
  refine ⟨?_, find?_writeCfgOut _ _ _ _ _ _ _ _ hfind⟩
  cases ips with
  | nil => simp at hn
  | cons a t1 =>
    cases t1 with
    | nil => simp at hn
    | cons b t2 =>
      simp only [processCfgBlck, hfind, if_neg hz, hget]

/-! ### C2: Ari cell semantics -/

/-- The Ari output formulas exactly as the claim states them (spec §4.3),
over `INIT[0..19]` in LSB-first order: `(Y, S, FCO)`. -/
def ariSpec (INIT : Nat → Bool) (a b c d fci : Bool) : Bool × Bool × Bool :=
  let F0 := INIT (4 * b.toNat + 2 * c.toNat + d.toNat)
  let F1 := INIT (8 + 4 * b.toNat + 2 * c.toNat + d.toNat)
  let P := INIT 19 || (!(INIT 19) && INIT 18)
  let G := (F0 && INIT 16 && INIT 17) || (INIT 17 && !(INIT 16)) ||
    (F1 && INIT 16 && INIT 17)
  let Y := INIT (8 * a.toNat + 4 * b.toNat + 2 * c.toNat + d.toNat)
  (Y, xor Y fci, (!P && G) || (P && fci))

/-- C2.  For an Ari block whose five inputs are all `Zero`/`One` and whose
stored (reversed) config has the builder-enforced 20 bits,
`__processAriBlck` writes `Y = INIT[8A+4B+2C+D]`, `S = Y XOR FCI` and
`FCO = (NOT P AND G) OR (P AND FCI)` with `F0`, `F1`, `P`, `G` as in the
claim (`ariSpec`). -/
theorem c2_ari_cell (g : VG) (blck_id : String) (ins : List String)
    (yN sN fN : String) (wy ws wf : Option V) (config : List Bool)
    (hfind : g.dGrph.find? blck_id =
      some (.ari ins (yN, wy) (sN, ws) (fN, wf) config))
    (hlen : config.length = 20) (ba bb bc bd bfci : Bool) :
    processAriBlck g blck_id
        [V.ofBool ba, V.ofBool bb, V.ofBool bc, V.ofBool bd, V.ofBool bfci] =
      .ok (writeAriOuts g blck_id yN sN fN
        (V.ofBool (ariSpec (fun i => config.getD i false) ba bb bc bd bfci).1)
        (V.ofBool (ariSpec (fun i => config.getD i false) ba bb bc bd bfci).2.1)
        (V.ofBool (ariSpec (fun i => config.getD i false) ba bb bc bd bfci).2.2)) ∧
    (writeAriOuts g blck_id yN sN fN
        (V.ofBool (ariSpec (fun i => config.getD i false) ba bb bc bd bfci).1)
        (V.ofBool (ariSpec (fun i => config.getD i false) ba bb bc bd bfci).2.1)
        (V.ofBool (ariSpec (fun i => config.getD i false) ba bb bc bd
          bfci).2.2)).dGrph.find? blck_id =
      some (.ari ins
        (yN, some (V.ofBool (ariSpec (fun i => config.getD i false) ba bb bc bd bfci).1))
        (sN, some (V.ofBool (ariSpec (fun i => config.getD i false) ba bb bc bd bfci).2.1))
        (fN, some (V.ofBool (ariSpec (fun i => config.getD i false) ba bb bc bd bfci).2.2))
        config) := by
  have hz : V.highZ ∉
      [V.ofBool ba, V.ofBool bb, V.ofBool bc, V.ofBool bd, V.ofBool bfci] := by
    simp only [List.mem_cons, List.not_mem_nil, or_false]
    push_neg
    exact ⟨(ofBool_ne_highZ ba).symm, (ofBool_ne_highZ bb).symm,
      (ofBool_ne_highZ bc).symm, (ofBool_ne_highZ bd).symm,
      (ofBool_ne_highZ bfci).symm⟩
  have hF0 : ipIndex [V.zero, V.ofBool bb, V.ofBool bc, V.ofBool bd] =
      4 * bb.toNat + 2 * bc.toNat + bd.toNat := by
    rw [← ofBool_false, ipIndex_ofBool4]
    simp [Bool.toNat]
  have hF1 : ipIndex [V.one, V.ofBool bb, V.ofBool bc, V.ofBool bd] =
      8 + 4 * bb.toNat + 2 * bc.toNat + bd.toNat := by
    rw [← ofBool_true, ipIndex_ofBool4]
    simp [Bool.toNat]
  have hY : ipIndex [V.ofBool ba, V.ofBool bb, V.ofBool bc, V.ofBool bd] =
      8 * ba.toNat + 4 * bb.toNat + 2 * bc.toNat + bd.toNat := ipIndex_ofBool4 _ _ _ _
  have hidx : ∀ i, i < 20 → config[i]? = some (config.getD i false) := by
    intro i hi
    exact getElem?_eq_some_getD config i (by omega)
  refine ⟨?_, find?_writeAriOuts _ _ _ _ _ _ _ _ _ _ _ _ _ _ _ _ hfind⟩
  simp only [processAriBlck, hfind, if_neg hz, hF0, hF1, hY,
    hidx 16 (by norm_num), hidx 17 (by norm_num), hidx 18 (by norm_num),
    hidx 19 (by norm_num),
    hidx (4 * bb.toNat + 2 * bc.toNat + bd.toNat) (by cases bb <;> cases bc <;> cases bd <;> simp [Bool.toNat]),
    hidx (8 + 4 * bb.toNat + 2 * bc.toNat + bd.toNat) (by cases bb <;> cases bc <;> cases bd <;> simp [Bool.toNat]),
    hidx (8 * ba.toNat + 4 * bb.toNat + 2 * bc.toNat + bd.toNat) (by cases ba <;> cases bb <;> cases bc <;> cases bd <;> simp [Bool.toNat]),
    ariSpec, toBool_ofBool]

/-! ### C7: single-input Cfg blocks -/

/-- C7 (amended).  For a Cfg block with exactly one input value `v ∈ {Zero,
One}`, `__processCfgBlck` emits the RAW INPUT BIT `v` (`int(ip_str, 2)` of
the one-character input string): the config digit plays no part. -/
theorem c7_single_input_raw (g : VG) (blck_id : String) (ins : List String)
    (opName : String) (w : Option V) (config : List Bool) (v : V)
    (hfind : g.dGrph.find? blck_id = some (.cfg ins opName w config))
    (hv : v ≠ V.highZ) :
    processCfgBlck g blck_id [v] = .ok (writeCfgOut g blck_id opName v) ∧
    (writeCfgOut g blck_id opName v).dGrph.find? blck_id =
      some (.cfg ins opName (some v) config) := by
  have hz : V.highZ ∉ [v] := by
    simp only [List.mem_singleton]
    exact fun hh => hv hh.symm
  exact ⟨by simp only [processCfgBlck, hfind, if_neg hz],
    find?_writeCfgOut _ _ _ _ _ _ _ _ hfind⟩

/-- A one-input Cfg block whose config digit is `0` (truth table all
zeros). -/
def gC7 : VG := addCfgBlck VG.empty "u" ["a"] ["o1"] [0]

/-- C7 counterexample.  On `gC7` with input value `One`, the evaluator
writes `One`, but entry `1` of the reversed 4-bit truth table of the config
digit `0` is the `Zero` bit: the output is NOT `config_rev[v]`. -/
theorem c7_counterexample :
    processCfgBlck gC7 "u" [V.one] = .ok (writeCfgOut gC7 "u" "o1" V.one) ∧
    (writeCfgOut gC7 "u" "o1" V.one).dGrph.find? "u" =
      some (.cfg ["a"] "o1" (some V.one) ((convertToBinaryStr [0]).reverse)) ∧
    V.ofBool (((convertToBinaryStr [0]).reverse).getD 1 false) = V.zero :=
  ⟨rfl, by decide, by decide⟩

/-! ### C9: tri-state absorption and the tri-state buffer rule -/

/-- C9.  (1) A `HighZ` among the inputs of a Cfg, Ari or Gate block makes
every output of that block `HighZ`; (2) the tri-state buffer emits its data
input exactly when ctrl is `One` and `HighZ` otherwise (in particular a
`HighZ` data input always yields a `HighZ` output). -/
theorem c9_highz_absorption :
    (∀ (g : VG) (blck_id : String) (ins : List String) (opName : String)
      (w : Option V) (config : List Bool) (ips : List V),
      g.dGrph.find? blck_id = some (.cfg ins opName w config) →
      V.highZ ∈ ips →
      processCfgBlck g blck_id ips = .ok (writeCfgOut g blck_id opName .highZ) ∧
      (writeCfgOut g blck_id opName .highZ).dGrph.find? blck_id =
        some (.cfg ins opName (some .highZ) config)) ∧
    (∀ (g : VG) (blck_id : String) (ins : List String) (yN sN fN : String)
      (wy ws wf : Option V) (config : List Bool) (ips : List V),
      g.dGrph.find? blck_id = some (.ari ins (yN, wy) (sN, ws) (fN, wf) config) →
      V.highZ ∈ ips →
      processAriBlck g blck_id ips =
        .ok (writeAriOuts g blck_id yN sN fN .highZ .highZ .highZ) ∧
      (writeAriOuts g blck_id yN sN fN .highZ .highZ .highZ).dGrph.find? blck_id =
        some (.ari ins (yN, some .highZ) (sN, some .highZ) (fN, some .highZ) config)) ∧
    (∀ (g : VG) (blck_id : String) (gt : GType) (ins : List String)
      (opName : String) (w : Option V) (ips : List V),
      g.dGrph.find? blck_id = some (.gate gt ins opName w) →
      V.highZ ∈ ips →
      processGates g blck_id ips = .ok (writeGateOut g blck_id opName .highZ) ∧
      (writeGateOut g blck_id opName .highZ).dGrph.find? blck_id =
        some (.gate gt ins opName (some .highZ))) ∧
    (∀ (g : VG) (blck_id : String) (dN cN opName : String) (w : Option V)
      (dIn ctrl : V),
      g.dGrph.find? blck_id = some (.tri dN cN opName w) →
      processTribuf g blck_id [dIn, ctrl] =
        .ok (writeTriOut g blck_id opName (if ctrl = V.one then dIn else .highZ)) ∧
      (writeTriOut g blck_id opName
        (if ctrl = V.one then dIn else .highZ)).dGrph.find? blck_id =
        some (.tri dN cN opName (some (if ctrl = V.one then dIn else .highZ)))) := by
  refine ⟨?_, ?_, ?_, ?_⟩
  · intro g blck_id ins opName w config ips hfind hmem
    exact ⟨by simp only [processCfgBlck, hfind, if_pos hmem],
      find?_writeCfgOut _ _ _ _ _ _ _ _ hfind⟩
  · intro g blck_id ins yN sN fN wy ws wf config ips hfind hmem
    exact ⟨by simp only [processAriBlck, hfind, if_pos hmem],
      find?_writeAriOuts _ _ _ _ _ _ _ _ _ _ _ _ _ _ _ _ hfind⟩
  · intro g blck_id gt ins opName w ips hfind hmem
    exact ⟨by simp only [processGates, hfind, if_pos hmem],
      find?_writeGateOut _ _ _ _ _ _ _ _ hfind⟩
  · intro g blck_id dN cN opName w dIn ctrl hfind
    exact ⟨by simp only [processTribuf, hfind],
      find?_writeTriOut _ _ _ _ _ _ _ _ hfind⟩

/-! ### C5: the duplicate-id check hole of `addCfgBlck` -/

/-- A store already holding a node under id `x`. -/
def gC5a : VG := addCfgBlck VG.empty "x" ["a"] ["o1"] [3]

/-- A second `addCfgBlck` under the same id, with exactly one input and a
one-digit config. -/
def gC5b : VG := addCfgBlck gC5a "x" ["a2"] ["o2"] [5]

/-- C5 failing input.  The second one-input `addCfgBlck` call under an
existing id is NOT a no-op: it overwrites the stored node (the early path
for `len(inputs) == 1 and len(config) == 1` skips the duplicate-id check).
The multi-input path, by contrast, does reject the duplicate, as do
`addPrimeIo`, `addAriBlck` and `addTribuf`. -/
theorem c5_duplicate_overwritten :
    gC5a.dGrph.find? "x" =
      some (.cfg ["a"] "o1" none ((convertToBinaryStr [3]).reverse)) ∧
    gC5b.dGrph.find? "x" =
      some (.cfg ["a2"] "o2" none ((convertToBinaryStr [5]).reverse)) ∧
    addCfgBlck gC5a "x" ["a", "b"] ["o3"] [7] = gC5a ∧
    addPrimeIo (addPrimeIo VG.empty "p" .i) "p" .o = addPrimeIo VG.empty "p" .i ∧
    addAriBlck gC5a "x" ["i1", "i2", "i3", "i4", "i5"] ["q1", "q2", "q3"]
      [1, 2, 3, 4, 5] = gC5a ∧
    addTribuf gC5a "x" "d" "c" "q" = gC5a := by
  refine ⟨?_, ?_, ?_, ?_, ?_, ?_⟩ <;> decide

/-! ### C6: `setIpValue` does not protect `VCC`/`GND` -/

/-- A graph in which `VCC` and `GND` have been declared as primary
inputs (pinned to `One`/`Zero` at creation). -/
def gC6 : VG := addPrimeIo (addPrimeIo VG.empty "VCC" .i) "GND" .i

/-- C6 failing input.  `VCC` is pinned to `One` at creation, but
`setIpValue('VCC', 0)` silently overwrites it with `Zero` (likewise `GND`
with `One`): the source has no guard for the reserved names. -/
theorem c6_set_input_overwrites_vcc :
    gC6.dGrph.find? "VCC" = some (.primeIo .i (some V.one)) ∧
    gC6.dGrph.find? "GND" = some (.primeIo .i (some V.zero)) ∧
    (setIpValue gC6 "VCC" 0).dGrph.find? "VCC" = some (.primeIo .i (some V.zero)) ∧
    (setIpValue gC6 "GND" 1).dGrph.find? "GND" = some (.primeIo .i (some V.one)) := by
  refine ⟨?_, ?_, ?_, ?_⟩ <;> decide

/-! ### C8: `triplicateBlck` on gates and prime ios raises -/

/-- A store holding one and-gate. -/
def gC8g : VG := addGate VG.empty "g1" .A ["n1", "n2"] "n3"

/-- A store holding one primary input. -/
def gC8p : VG := addPrimeIo VG.empty "p1" .i

/-- C8 counterexample.  `triplicateBlck` on a gate or a prime io does leave
the store unchanged, but the error escapes as an uncaught Python exception
(`TOut.pyExn`: TypeError on `len` of the prime-io value; IndexError after a
gate record is misclassified as an ari block), not through the printed
diagnostic channel. -/
theorem c8_counterexample :
    triplicateBlck gC8g "g1" = (gC8g, .pyExn) ∧
    triplicateBlck gC8p "p1" = (gC8p, .pyExn) := by
  refine ⟨?_, ?_⟩ <;> decide

/-- C8 (amended).  For every graph, `triplicateBlck` on an id bound to a
gate or prime-io record returns the store unchanged together with the
uncaught-exception marker, never the diagnostic no-op of a missing id. -/
theorem c8_gate_primeio_exception (g : VG) (blck_id : String) :
    (∀ t w, g.dGrph.find? blck_id = some (.primeIo t w) →
      triplicateBlck g blck_id = (g, .pyExn)) ∧
    (∀ gt ins opName w, g.dGrph.find? blck_id = some (.gate gt ins opName w) →
      triplicateBlck g blck_id = (g, .pyExn)) := by
  constructor
  · intro t w h
    simp only [triplicateBlck, h]
  · intro gt ins opName w h
    simp only [triplicateBlck, h]

/-! ### Concrete fixtures and witnesses -/

/-- Scenario S1: inputs `a`, `b`, `c`, output `y`, Cfg `u1` with config
`c2`. -/
def gC1 : VG :=
  let g := addPrimeIo VG.empty "a" .i
  let g := addPrimeIo g "b" .i
  let g := addPrimeIo g "c" .i
  let g := addPrimeIo g "y" .o
  addCfgBlck g "u1" ["a", "b", "c"] ["y"] [12, 2]

/-- C1 witness: the general theorem applied to the S1 block at inputs
`(1,1,0)`, together with the spec's three sample values: bit 6 of `0xc2`
is `1`, bit 1 is `1`, bit 2 is `0`. -/
theorem c1_witness :
    (processCfgBlck gC1 "u1" [V.one, V.one, V.zero] =
      .ok (writeCfgOut gC1 "u1" "y"
        (V.ofBool ((hexToNat [12, 2]).testBit (ipIndex [V.one, V.one, V.zero])))) ∧
     (writeCfgOut gC1 "u1" "y"
        (V.ofBool ((hexToNat [12, 2]).testBit
          (ipIndex [V.one, V.one, V.zero])))).dGrph.find? "u1" =
      some (.cfg ["a", "b", "c"] "y"
        (some (V.ofBool ((hexToNat [12, 2]).testBit (ipIndex [V.one, V.one, V.zero]))))
        ((convertToBinaryStr [12, 2]).reverse))) ∧
    V.ofBool ((hexToNat [12, 2]).testBit (ipIndex [V.one, V.one, V.zero])) = V.one ∧
    V.ofBool ((hexToNat [12, 2]).testBit (ipIndex [V.zero, V.zero, V.one])) = V.one ∧
    V.ofBool ((hexToNat [12, 2]).testBit (ipIndex [V.zero, V.one, V.zero])) = V.zero :=
  ⟨c1_cfg_lut gC1 "u1" ["a", "b", "c"] "y" none [12, 2] [V.one, V.one, V.zero]
      (by decide) (by decide) (by decide) (by decide),
    by decide, by decide, by decide⟩

/-- Scenario S3: an Ari block with config `A5D21`. -/
def gC2 : VG :=
  addAriBlck VG.empty "ari1" ["iA", "iB", "iC", "iD", "iF"] ["oy", "os", "of"]
    [10, 5, 13, 2, 1]

/-- C2 witness: the general theorem applied to the S3 cell at
`(A,B,C,D,FCI) = (1,0,1,0,0)`, whose formula values are
`Y = 1`, `S = 1`, `FCO = 0`. -/
theorem c2_witness :
    processAriBlck gC2 "ari1" [V.one, V.zero, V.one, V.zero, V.zero] =
      .ok (writeAriOuts gC2 "ari1" "oy" "os" "of" V.one V.one V.zero) :=
  (c2_ari_cell gC2 "ari1" ["iA", "iB", "iC", "iD", "iF"] "oy" "os" "of"
      none none none ((convertToBinaryStr [10, 5, 13, 2, 1]).reverse)
      (by decide) (by decide) true false true false false).1.trans
    (congrArg Except.ok (by decide))

/-- C7 witness: the amended theorem applied to `gC7` at input `Zero`. -/
theorem c7_witness :
    processCfgBlck gC7 "u" [V.zero] = .ok (writeCfgOut gC7 "u" "o1" V.zero) :=
  (c7_single_input_raw gC7 "u" ["a"] "o1" none ((convertToBinaryStr [0]).reverse)
      V.zero (by decide) (by decide)).1

/-- A lone tri-state buffer. -/
def gC9t : VG := addTribuf VG.empty "t1" "d" "c" "w"

/-- C9 witness: each of the four parts applied at a concrete block with a
`HighZ` input (for the tribuf: a `HighZ` ctrl). -/
theorem c9_witness :
    processCfgBlck gC7 "u" [V.highZ] = .ok (writeCfgOut gC7 "u" "o1" V.highZ) ∧
    processAriBlck gC2 "ari1" [V.highZ, V.zero, V.zero, V.zero, V.zero] =
      .ok (writeAriOuts gC2 "ari1" "oy" "os" "of" V.highZ V.highZ V.highZ) ∧
    processGates gC8g "g1" [V.one, V.highZ] =
      .ok (writeGateOut gC8g "g1" "n3" V.highZ) ∧
    processTribuf gC9t "t1" [V.one, V.highZ] =
      .ok (writeTriOut gC9t "t1" "w" V.highZ) :=
  ⟨(c9_highz_absorption.1 gC7 "u" ["a"] "o1" none
      ((convertToBinaryStr [0]).reverse) [V.highZ] (by decide) (by decide)).1,
   (c9_highz_absorption.2.1 gC2 "ari1" ["iA", "iB", "iC", "iD", "iF"]
      "oy" "os" "of" none none none
      ((convertToBinaryStr [10, 5, 13, 2, 1]).reverse)
      [V.highZ, V.zero, V.zero, V.zero, V.zero] (by decide) (by decide)).1,
   (c9_highz_absorption.2.2.1 gC8g "g1" .A ["n1", "n2"] "n3" none
      [V.one, V.highZ] (by decide) (by decide)).1,
   (c9_highz_absorption.2.2.2 gC9t "t1" "d" "c" "w" none V.one V.highZ
      (by decide)).1⟩

/-- C8 witness: the amended theorem applied to the two concrete stores. -/
theorem c8_witness :
    triplicateBlck gC8p "p1" = (gC8p, .pyExn) ∧
    triplicateBlck gC8g "g1" = (gC8g, .pyExn) :=
  ⟨(c8_gate_primeio_exception gC8p "p1").1 .i none (by decide),
   (c8_gate_primeio_exception gC8g "g1").2 .A ["n1", "n2"] "n3" none (by decide)⟩

/-! ### C3: TMR equivalence -/

/-- Reading the value of a primary io net after simulation. -/
def outBit (g : VG) (net : String) : Option V :=
  match g.dGrph.find? net with
  | some (.primeIo _ v) => v
  | _ => none

/-- A graph whose Cfg block has a registered fan-out sink `y2` (a primary
output), inputs already set to `1`, `1`. -/
def gFan : VG :=
  let g := addPrimeIo VG.empty "a" .i
  let g := addPrimeIo g "b" .i
  let g := addPrimeIo g "y2" .o
  let g := addCfgBlck g "u1" ["a", "b"] ["t", "y2"] [8]
  let g := setIpValue g "a" 1
  setIpValue g "b" 1

/-- The fan-out graph after one simulation. -/
def gFanSim : VG := (simulate 20 gFan none).1

/-- C3 counterexample.  On the fan-out graph, simulation drives the sink
`y2` to `One`; after `triplicateBlck` of the Cfg block the rewrite
succeeds and re-simulation finishes without error, but `y2` is left
`Unset`: the voter or-gate never performs the fan-out broadcast, so the
two runs do NOT agree on every primary output. -/
theorem c3_counterexample :
    outBit gFanSim "y2" = some V.one ∧
    (triplicateBlck gFanSim "u1").2 = .ok ∧
    (simulate 20 (triplicateBlck gFanSim "u1").1 none).2 = true ∧
    outBit (simulate 20 (triplicateBlck gFanSim "u1").1 none).1 "y2" = none := by
  refine ⟨?_, ?_, ?_, ?_⟩ <;> decide

/-- Scenario S5: the two-Cfg chain `u1(a,b) → t`, `u2(t,c) → z` with the
single primary output `z`. -/
def gS5 : VG :=
  let g := addPrimeIo VG.empty "a" .i
  let g := addPrimeIo g "b" .i
  let g := addPrimeIo g "c" .i
  let g := addPrimeIo g "z" .o
  let g := addCfgBlck g "u1" ["a", "b"] ["t"] [6]
  addCfgBlck g "u2" ["t", "c"] ["z"] [9]

/-- The S5 output for one input vector. -/
def s5out (g : VG) (va vb vc : Bool) : Option V :=
  outBit (simulate 20 g
    (some (["a", "b", "c"], [cond va 1 0, cond vb 1 0, cond vc 1 0]))).1 "z"

/-- C3 (amended).  On the S5 two-Cfg chain — whose triplicated block has no
registered fan-out sinks — triplicating either block preserves the value of
the (only) primary output `z` on every one of the `2^3` input vectors, and
every such value is actually driven. -/
theorem c3_s5_tmr_equivalence :
    gS5.prime_op = ["z"] ∧
    (triplicateBlck gS5 "u1").2 = .ok ∧
    (triplicateBlck gS5 "u2").2 = .ok ∧
    ∀ (va vb vc : Bool),
      (s5out gS5 va vb vc).isSome = true ∧
      s5out (triplicateBlck gS5 "u1").1 va vb vc = s5out gS5 va vb vc ∧
      s5out (triplicateBlck gS5 "u2").1 va vb vc = s5out gS5 va vb vc := by
  refine ⟨by decide, by decide, by decide, ?_⟩
  decide

/-! ### C4: no cycle detection in the evaluator -/

/-- Two mutually fed Cfg blocks `A` and `B`, plus an independent block `C`
fed by the set primary input `a`, listed after them. -/
def gCycC : VG :=
  let g := addPrimeIo VG.empty "a" .i
  let g := addPrimeIo g "y" .o
  let g := addCfgBlck g "A" ["Bo"] ["Ao"] [1]
  let g := addCfgBlck g "B" ["Ao"] ["Bo"] [1]
  let g := addCfgBlck g "C" ["a"] ["y"] [1]
  setIpValue g "a" 1

/-- C4 counterexample.  At the concrete stack budget 100 (the general
`c4_no_cycle_detection` below extends this to every budget, covering
CPython's default limit of 1000), `simulate` on the cyclic graph ends with
an escaped exception (never a per-block `CombinationalCycle` report), and
the INDEPENDENT block `C` — which a per-block error policy would still
evaluate — is left with its output and its primary output `y` `Unset`. -/
theorem c4_counterexample :
    (simulate 100 gCycC none).2 = false ∧
    (simulate 100 gCycC none).1.dGrph.find? "C" =
      some (.cfg ["a"] "y" none ((convertToBinaryStr [1]).reverse)) ∧
    outBit (simulate 100 gCycC none).1 "y" = none := by
  refine ⟨?_, ?_, ?_⟩ <;> decide

theorem c4_stepA (pb : VG → String → VG × PRes) (g2 : VG)
    (h : pb gCycC "B" = (g2, .exn)) :
    processBlcksF pb gCycC "A" = (g2, .exn) := by
  have hfind : gCycC.dGrph.find? "A" =
      some (.cfg ["Bo"] "Ao" none ((convertToBinaryStr [1]).reverse)) := by decide
  have hios : (primeIpEntries gCycC ++ interOps gCycC).find?
      (fun e => e.net = "Bo") = some ⟨"Bo", some "B", none⟩ := by decide
  simp only [processBlcksF, hfind, Node.inputs, resolveInputsF, hios, h]

theorem c4_stepB (pb : VG → String → VG × PRes) (g2 : VG)
    (h : pb gCycC "A" = (g2, .exn)) :
    processBlcksF pb gCycC "B" = (g2, .exn) := by
  have hfind : gCycC.dGrph.find? "B" =
      some (.cfg ["Ao"] "Bo" none ((convertToBinaryStr [1]).reverse)) := by decide
  have hios : (primeIpEntries gCycC ++ interOps gCycC).find?
      (fun e => e.net = "Ao") = some ⟨"Ao", some "A", none⟩ := by decide
  simp only [processBlcksF, hfind, Node.inputs, resolveInputsF, hios, h]

theorem c4_cycle_exhausts (n : Nat) :
    processBlcks n gCycC "A" = (gCycC, .exn) ∧
    processBlcks n gCycC "B" = (gCycC, .exn) := by
  induction n with
  | zero => exact ⟨rfl, rfl⟩
  | succ k ih =>
    refine ⟨?_, ?_⟩
    · rw [processBlcks_succ]
      exact c4_stepA _ _ ih.2
    · rw [processBlcks_succ]
      exact c4_stepB _ _ ih.1

/-- The ari/tri/gate tail of `simGo`, as a function of the cfg-pass
result (definitionally equal to the corresponding part of `simGo`). -/
def passesAfterCfg (fuel : Nat) (r : VG × Bool) : VG × Bool :=
  let r2 := runPass fuel (ariIds r.1) r.1 r.2
  let r3 := runPass fuel (triIds r2.1) r2.1 r2.2
  runPass fuel (gateIds r3.1) r3.1 r3.2

theorem simGo_decompose (fuel : Nat) (g : VG) :
    simGo fuel g = passesAfterCfg fuel
      (runPass fuel (cfgIds (simSetup g)) (simSetup g) true) := rfl

/-- C4 (amended).  The evaluator performs NO revisit detection: on the
cyclic graph, whatever the stack budget, `__processBlcks` re-enters the two
blocks until the budget is exhausted and the RecursionError escapes; the
whole `simulate` call aborts with the store exactly as `__simSetup` left
it, so independent blocks are skipped rather than evaluated. -/
theorem c4_no_cycle_detection (fuel : Nat) :
    processBlcks fuel gCycC "A" = (gCycC, .exn) ∧
    simulate fuel gCycC none = (gCycC, false) := by
  have h := c4_cycle_exhausts fuel
  refine ⟨h.1, ?_⟩
  have hsetup : simSetup gCycC = gCycC := by decide
  have hcfg : cfgIds gCycC = ["A", "B", "C"] := by decide
  have hneed : needsProc gCycC "A" = true := by decide
  have hA : runPass fuel ["A", "B", "C"] gCycC true = (gCycC, false) := by
    simp only [runPass, hneed, h.1, if_true]
  show simGo fuel gCycC = (gCycC, false)
  rw [simGo_decompose, hsetup, hcfg, hA]
  rfl

/-! ### C10: the frame property of `simulate` -/

/-- The structural shape of a node: everything except the stored values
(kind, input tuple, output net names, config, io direction). -/
def Node.shape (n : Node) : Node :=
  Node.withPrimeVal none n.clearBlockVal

/-- The shape view of a store: ordered identifiers with node shapes. -/
def storeShape (s : Store) : Store :=
  s.map fun p => (p.1, p.2.shape)

/-- Two graphs agree on everything `simulate` may not change: the ordered
node identifiers with each node's shape, the prime-output list, and the
fan-out registry. -/
def frameEq (g h : VG) : Prop :=
  storeShape g.dGrph = storeShape h.dGrph ∧ g.prime_op = h.prime_op ∧
    g.op_fanout = h.op_fanout

theorem frameEq_refl (g : VG) : frameEq g g := ⟨rfl, rfl, rfl⟩

theorem frameEq_trans {a b c : VG} (h1 : frameEq a b) (h2 : frameEq b c) :
    frameEq a c :=
  ⟨h1.1.trans h2.1, h1.2.1.trans h2.2.1, h1.2.2.trans h2.2.2⟩

theorem shape_withPrimeVal (v : Option V) (n : Node) :
    (Node.withPrimeVal v n).shape = n.shape := by
  cases n <;> rfl

theorem shape_withCfgVal (v : Option V) (n : Node) :
    (Node.withCfgVal v n).shape = n.shape := by
  cases n <;> rfl

theorem shape_withAriVals (vy vs vf : Option V) (n : Node) :
    (Node.withAriVals vy vs vf n).shape = n.shape := by
  cases n <;> rfl

theorem shape_withTriVal (v : Option V) (n : Node) :
    (Node.withTriVal v n).shape = n.shape := by
  cases n <;> rfl

theorem shape_withGateVal (v : Option V) (n : Node) :
    (Node.withGateVal v n).shape = n.shape := by
  cases n <;> rfl

theorem shape_clearBlockVal (n : Node) : n.clearBlockVal.shape = n.shape := by
  cases n <;> rfl

theorem storeShape_setVal (s : Store) (k : String) (f : Node → Node)
    (hf : ∀ n, (f n).shape = n.shape) :
    storeShape (s.setVal k f) = storeShape s := by
  induction s with
  | nil => rfl
  | cons p t ih =>
    simp only [storeShape, Store.setVal, List.map_cons] at *
    by_cases h : p.1 = k <;> simp [h, hf, ih]

theorem frame_upd (g : VG) (k : String) (f : Node → Node)
    (hf : ∀ n, (f n).shape = n.shape) : frameEq g (g.upd k f) :=
  ⟨(storeShape_setVal _ _ _ hf).symm, rfl, rfl⟩

theorem frame_propagatePrime (g : VG) (net : String) (v : Option V) :
    frameEq g (propagatePrime g net v) := by
  unfold propagatePrime
  split
  · exact frame_upd _ _ _ (shape_withPrimeVal v)
  · exact frameEq_refl g

theorem frame_foldPrime (sinks : List String) (g : VG) (v : Option V) :
    frameEq g (sinks.foldl
      (fun g s => if s ∈ g.prime_op then g.upd s (Node.withPrimeVal v) else g)
      g) := by
  induction sinks generalizing g with
  | nil => exact frameEq_refl g
  | cons s t ih =>
    simp only [List.foldl_cons]
    refine frameEq_trans ?_ (ih _)
    split
    · exact frame_upd _ _ _ (shape_withPrimeVal v)
    · exact frameEq_refl g

theorem frame_propagateFanout (g : VG) (net : String) (v : Option V) :
    frameEq g (propagateFanout g net v) := by
  unfold propagateFanout
  cases g.op_fanout.lookup net with
  | none => exact frameEq_refl g
  | some sinks => exact frame_foldPrime sinks g v

theorem frame_writeCfgOut (g : VG) (blck_id opName : String) (v : V) :
    frameEq g (writeCfgOut g blck_id opName v) :=
  frameEq_trans
    (frameEq_trans (frame_upd _ _ _ (shape_withCfgVal _)) (frame_propagatePrime _ _ _))
    (frame_propagateFanout _ _ _)

theorem frame_writeAriOuts (g : VG) (blck_id yN sN fN : String) (vy vs vf : V) :
    frameEq g (writeAriOuts g blck_id yN sN fN vy vs vf) :=
  frameEq_trans
    (frameEq_trans
      (frameEq_trans (frame_upd _ _ _ (shape_withAriVals _ _ _))
        (frame_propagatePrime _ _ _))
      (frame_propagatePrime _ _ _))
    (frame_propagatePrime _ _ _)

theorem frame_writeTriOut (g : VG) (blck_id opName : String) (v : V) :
    frameEq g (writeTriOut g blck_id opName v) :=
  frameEq_trans (frame_upd _ _ _ (shape_withTriVal _)) (frame_propagatePrime _ _ _)

theorem frame_writeGateOut (g : VG) (blck_id opName : String) (v : V) :
    frameEq g (writeGateOut g blck_id opName v) :=
  frameEq_trans (frame_upd _ _ _ (shape_withGateVal _)) (frame_propagatePrime _ _ _)

theorem frame_processCfgBlck (g : VG) (blck_id : String) (ips : List V)
    (g2 : VG) (h : processCfgBlck g blck_id ips = .ok g2) : frameEq g g2 := by
  unfold processCfgBlck at h
  split at h
  · split at h
    · cases h
      exact frame_writeCfgOut _ _ _ _
    · split at h
      · cases h
        exact frame_writeCfgOut _ _ _ _
      · cases h
      · split at h
        · cases h
          exact frame_writeCfgOut _ _ _ _
        · cases h
  · cases h
    exact frameEq_refl _

theorem frame_processAriBlck (g : VG) (blck_id : String) (ips : List V)
    (g2 : VG) (h : processAriBlck g blck_id ips = .ok g2) : frameEq g g2 := by
  unfold processAriBlck at h
  split at h
  · split at h
    · cases h
      exact frame_writeAriOuts _ _ _ _ _ _ _ _
    · split at h
      · split at h
        · cases h
          exact frame_writeAriOuts _ _ _ _ _ _ _ _
        · cases h
      · cases h
  · cases h
    exact frameEq_refl _

theorem frame_processTribuf (g : VG) (blck_id : String) (ips : List V)
    (g2 : VG) (h : processTribuf g blck_id ips = .ok g2) : frameEq g g2 := by
  unfold processTribuf at h
  split at h
  · split at h
    · cases h
      exact frame_writeTriOut _ _ _ _
    · cases h
  · cases h
    exact frameEq_refl _

theorem frame_processGates (g : VG) (blck_id : String) (ips : List V)
    (g2 : VG) (h : processGates g blck_id ips = .ok g2) : frameEq g g2 := by
  unfold processGates at h
  split at h
  · cases h
    exact frame_writeGateOut _ _ _ _
  · cases h
    exact frameEq_refl _

theorem frame_resolveInputsF (pb : VG → String → VG × PRes)
    (hpb : ∀ g id, frameEq g (pb g id).1) (ips : List String) :
    ∀ (g : VG) (all : List IoEntry), frameEq g (resolveInputsF pb g all ips).1 := by
  induction ips with
  | nil => intro g all; exact frameEq_refl g
  | cons ip rest ih =>
    intro g all
    simp only [resolveInputsF]
    split
    · exact frameEq_refl g
    · split
      · rcases hr : resolveInputsF pb g all rest with ⟨g3, rr⟩
        have h3 := ih g all
        rw [hr] at h3
        cases rr <;> simp only [hr] <;> exact h3
      · split
        · exact frameEq_refl g
        · rename_i origin hsrc
          rcases hp : pb g origin with ⟨g2, pr⟩
          have h2 := hpb g origin
          rw [hp] at h2
          cases pr with
          | exn => simp only [hp]; exact h2
          | ret b =>
            cases b with
            | false => simp only [hp]; exact h2
            | true =>
              rcases hr : resolveInputsF pb g2 all rest with ⟨g3, rr⟩
              have h3 := ih g2 all
              rw [hr] at h3
              cases rr <;> simp only [hp, hr] <;> exact frameEq_trans h2 h3

theorem frame_processBlcksF (pb : VG → String → VG × PRes)
    (hpb : ∀ g id, frameEq g (pb g id).1) (g : VG) (id : String) :
    frameEq g (processBlcksF pb g id).1 := by
  unfold processBlcksF
  split
  · exact frameEq_refl g
  · rename_i nd _
    rcases hr : resolveInputsF pb g (primeIpEntries g ++ interOps g) nd.inputs
      with ⟨g2, rr⟩
    have h2 := frame_resolveInputsF pb hpb nd.inputs g (primeIpEntries g ++ interOps g)
    rw [hr] at h2
    cases rr with
    | exn => simp only [hr]; exact h2
    | abort => simp only [hr]; exact h2
    | vals ips =>
      simp only [hr]
      split
      · exact h2
      · cases nd with
        | primeIo t w => exact h2
        | cfg i o wv c =>
          rcases hd : processCfgBlck g2 id ips with g3 | g3
          · simp only [hd]; exact h2
          · simp only [hd]; exact frameEq_trans h2 (frame_processCfgBlck _ _ _ _ hd)
        | ari i y s f c =>
          rcases hd : processAriBlck g2 id ips with g3 | g3
          · simp only [hd]; exact h2
          · simp only [hd]; exact frameEq_trans h2 (frame_processAriBlck _ _ _ _ hd)
        | tri d c o wv =>
          rcases hd : processTribuf g2 id ips with g3 | g3
          · simp only [hd]; exact h2
          · simp only [hd]; exact frameEq_trans h2 (frame_processTribuf _ _ _ _ hd)
        | gate t i o wv =>
          rcases hd : processGates g2 id ips with g3 | g3
          · simp only [hd]; exact h2
          · simp only [hd]; exact frameEq_trans h2 (frame_processGates _ _ _ _ hd)

theorem frame_processBlcks (fuel : Nat) :
    ∀ (g : VG) (id : String), frameEq g (processBlcks fuel g id).1 := by
  induction fuel with
  | zero => intro g id; exact frameEq_refl g
  | succ k ih =>
    intro g id
    rw [processBlcks_succ]
    exact frame_processBlcksF _ ih g id

theorem frame_runPass (fuel : Nat) (ids : List String) :
    ∀ (g : VG) (ok : Bool), frameEq g (runPass fuel ids g ok).1 := by
  induction ids with
  | nil => intro g ok; exact frameEq_refl g
  | cons id rest ih =>
    intro g ok
    simp only [runPass]
    split
    · split
      · rcases hp : processBlcks fuel g id with ⟨g2, pr⟩
        have h2 := frame_processBlcks fuel g id
        rw [hp] at h2
        cases pr with
        | exn => simp only [hp]; exact h2
        | ret b => simp only [hp]; exact frameEq_trans h2 (ih g2 true)
      · exact ih g ok
    · exact frameEq_refl g

theorem storeShape_map_clear (s : Store) :
    storeShape (s.map fun p => (p.1, p.2.clearBlockVal)) = storeShape s := by
  induction s with
  | nil => rfl
  | cons p t ih =>
    simp only [storeShape, List.map_cons, List.map_map, Function.comp_def] at *
    rw [shape_clearBlockVal, ih]

theorem frame_foldClear (l : List String) :
    ∀ g : VG, frameEq g
      (l.foldl (fun g opId => g.upd opId (Node.withPrimeVal none)) g) := by
  induction l with
  | nil => intro g; exact frameEq_refl g
  | cons k t ih =>
    intro g
    simp only [List.foldl_cons]
    exact frameEq_trans (frame_upd _ _ _ (shape_withPrimeVal none)) (ih _)

theorem frame_simSetup (g : VG) : frameEq g (simSetup g) := by
  unfold simSetup
  refine frameEq_trans (frame_foldClear g.prime_op g) ?_
  exact ⟨(storeShape_map_clear _).symm, rfl, rfl⟩

theorem frame_passesAfterCfg (fuel : Nat) (r : VG × Bool) :
    frameEq r.1 (passesAfterCfg fuel r).1 := by
  unfold passesAfterCfg
  exact frameEq_trans (frame_runPass _ _ _ _)
    (frameEq_trans (frame_runPass _ _ _ _) (frame_runPass _ _ _ _))

theorem frame_simGo (fuel : Nat) (g : VG) : frameEq g (simGo fuel g).1 := by
  rw [simGo_decompose]
  exact frameEq_trans (frame_simSetup g)
    (frameEq_trans (frame_runPass fuel _ _ _) (frame_passesAfterCfg fuel _))

theorem frame_setIpValue (g : VG) (ip_id : String) (value : Nat) :
    frameEq g (setIpValue g ip_id value) := by
  unfold setIpValue
  split
  · exact frameEq_refl g
  · exact frame_upd _ _ _ (shape_withPrimeVal _)
  · exact frameEq_refl g

theorem frame_foldSet (l : List (String × Nat)) :
    ∀ g : VG, frameEq g (l.foldl (fun g p => setIpValue g p.1 p.2) g) := by
  induction l with
  | nil => intro g; exact frameEq_refl g
  | cons p t ih =>
    intro g
    simp only [List.foldl_cons]
    exact frameEq_trans (frame_setIpValue g p.1 p.2) (ih _)

theorem simulate_none (fuel : Nat) (g : VG) :
    simulate fuel g none = simGo fuel g := rfl

theorem simulate_some (fuel : Nat) (g : VG) (ins : List String) (bits : List Nat) :
    simulate fuel g (some (ins, bits)) =
      if ins.length ≠ bits.length then (g, true)
      else simGo fuel ((ins.zip bits).foldl (fun g p => setIpValue g p.1 p.2) g) := rfl

/-- C10.  A `simulate` call — with or without an argument vector — mutates
only stored values: the ordered set of node identifiers, each node's kind,
ordered input tuple, output net names and configuration, each primary io's
direction, the prime-output list and the fan-out registry are identical
before and after the call. -/
theorem c10_simulate_frame (fuel : Nat) (g : VG)
    (args : Option (List String × List Nat)) :
    frameEq g (simulate fuel g args).1 := by
  cases args with
  | none =>
    rw [simulate_none]
    exact frame_simGo fuel g
  | some p =>
    obtain ⟨ins, bits⟩ := p
    rw [simulate_some]
    by_cases hl : ins.length ≠ bits.length
    · rw [if_pos hl]
      exact frameEq_refl g
    · rw [if_neg hl]
      exact frameEq_trans (frame_foldSet (ins.zip bits) g) (frame_simGo fuel _)

end VerilogGraphModel
